import Mathlib

/-!
Verification of the content-normalization core of the factagent repository.

The Python source (src/tools.py, src/app.py) is embedded shallowly:
strings are modelled as `List Char`, regular-expression searches over the
two concrete patterns of `_extract_video_id` are modelled by specialized
scanning functions faithful to Python `re.search` semantics
(leftmost-match, greedy quantifiers, alternation order), and all
third-party network / parsing collaborators (yt-dlp, youtube-transcript-api,
requests, BeautifulSoup + html2text, urllib.parse, the smolagents CodeAgent)
are modelled as environment oracles, since their code is not part of this
repository.
-/

namespace Factagent

/-- Boolean test that `p` is a prefix of `s` (used to model matching a
regex literal at a fixed position of the subject string). -/
def isPfx : List Char → List Char → Bool
  | [], _ => true
  | _ :: _, [] => false
  | a :: as, b :: bs => a == b && isPfx as bs

/-!
## `_extract_video_id` (src/tools.py lines 25-37)

Python:
```
patterns = [
    r'(?:youtube\.com/watch\?v=|youtu\.be/|youtube\.com/embed/)([^&\?/]+)',
    r'youtube\.com/watch\?.*v=([^&]+)'
]
for pattern in patterns:
    match = re.search(pattern, url)
    if match:
        return match.group(1)
raise ValueError(f"Could not extract video ID from URL: {url}")
```
-/

/-- The literal alternative `youtube\.com/watch\?v=` of pattern 1. -/
def patWatch : List Char := "youtube.com/watch?v=".toList

/-- The literal alternative `youtu\.be/` of pattern 1. -/
def patShort : List Char := "youtu.be/".toList

/-- The literal alternative `youtube\.com/embed/` of pattern 1. -/
def patEmbed : List Char := "youtube.com/embed/".toList

/-- The literal head `youtube\.com/watch\?` of pattern 2. -/
def patWatchAny : List Char := "youtube.com/watch?".toList

/-- Character class `[^&\?/]` — the capture class of pattern 1. -/
def notDelim1 (c : Char) : Bool := !(c == '&') && !(c == '?') && !(c == '/')

/-- Character class `[^&]` — the capture class of pattern 2. -/
def notAmp (c : Char) : Bool := !(c == '&')

/-- Matching pattern 1 anchored at the current position: one of the three
literal alternatives followed by a non-empty greedy `[^&\?/]+` capture.
The three literals are pairwise incompatible at a single position, so the
alternation order of the regex cannot change the result. -/
def tryPat1At (s : List Char) : Option (List Char) :=
  if isPfx patWatch s then
    let cap := (s.drop patWatch.length).takeWhile notDelim1
    if cap.isEmpty then none else some cap
  else if isPfx patShort s then
    let cap := (s.drop patShort.length).takeWhile notDelim1
    if cap.isEmpty then none else some cap
  else if isPfx patEmbed s then
    let cap := (s.drop patEmbed.length).takeWhile notDelim1
    if cap.isEmpty then none else some cap
  else none

/-- `re.search` of pattern 1: try each position left to right. -/
def searchPat1 : List Char → Option (List Char)
  | [] => none
  | c :: rest =>
    match tryPat1At (c :: rest) with
    | some r => some r
    | none => searchPat1 rest

/-- The `.*v=([^&]+)` tail of pattern 2 with Python greedy semantics:
`.*` (which does not match a newline) consumes as much as possible, so the
match uses the last occurrence of `v=` that is reachable without crossing
a newline and is followed by at least one non-`&` character. -/
def pat2Find : List Char → Option (List Char)
  | [] => none
  | c :: rest =>
    match (if c == '\n' then none else pat2Find rest) with
    | some r => some r
    | none =>
      if c == 'v' then
        match rest with
        | [] => none
        | d :: rest2 =>
          if d == '=' then
            let cap := rest2.takeWhile notAmp
            if cap.isEmpty then none else some cap
          else none
      else none

/-- `re.search` of pattern 2 `youtube\.com/watch\?.*v=([^&]+)`:
leftmost occurrence of the literal head, then the greedy tail. -/
def searchPat2 : List Char → Option (List Char)
  | [] => none
  | c :: rest =>
    if isPfx patWatchAny (c :: rest) then
      match pat2Find ((c :: rest).drop patWatchAny.length) with
      | some r => some r
      | none => searchPat2 rest
    else searchPat2 rest

/-- `_extract_video_id`: patterns tried in order, first match wins;
no match raises `ValueError` (modelled as `Except.error` carrying the
exception message). -/
def extract_video_id (url : List Char) : Except (List Char) (List Char) :=
  match searchPat1 url with
  | some r => Except.ok r
  | none =>
    match searchPat2 url with
    | some r => Except.ok r
    | none =>
      Except.error ("Could not extract video ID from URL: ".toList ++ url)

/-- The YouTube video-id character class `[A-Za-z0-9_-]` quoted by the
spec's invariant. -/
def isYtIdChar (c : Char) : Bool :=
  (decide ('A' ≤ c) && decide (c ≤ 'Z')) ||
  (decide ('a' ≤ c) && decide (c ≤ 'z')) ||
  (decide ('0' ≤ c) && decide (c ≤ '9')) ||
  c == '_' || c == '-'

/-!
## `_get_video_metadata` (src/tools.py lines 40-62)

The yt-dlp call itself is a third-party collaborator; its response is
modelled as a record of optional fields (`info.get(key, default)` reads a
key that may be absent). The field assembly of lines 53-62 is embedded.
-/

/-- The yt-dlp `extract_info` response: every consulted key may be absent. -/
structure ProviderInfo where
  title : Option (List Char)
  description : Option (List Char)
  duration : Option Nat
  upload_date : Option (List Char)
  uploader : Option (List Char)
  view_count : Option Nat
  like_count : Option Nat
  tags : Option (List (List Char))

/-- The metadata record returned by `_get_video_metadata`. -/
structure VideoMetadata where
  title : List Char
  description : List Char
  duration : Nat
  upload_date : List Char
  uploader : List Char
  view_count : Nat
  like_count : Nat
  tags : List (List Char)

/-- Field assembly of `_get_video_metadata` (src/tools.py lines 53-62):
`info.get('title', 'Unknown')`, `info.get('description', '')`, etc. -/
def metadata_of_info (info : ProviderInfo) : VideoMetadata where
  title := info.title.getD "Unknown".toList
  description := info.description.getD []
  duration := info.duration.getD 0
  upload_date := info.upload_date.getD []
  uploader := info.uploader.getD "Unknown".toList
  view_count := info.view_count.getD 0
  like_count := info.like_count.getD 0
  tags := info.tags.getD []

/-!
## `_get_video_transcript` (src/tools.py lines 65-113)

The transcript-provider interaction (list tracks, prefer English, fall
back to the first available track, fetch) is third-party; its outcome is
an oracle. The entry formatting (lines 95-106) and the error-message
mapping (lines 108-113) are embedded. Start offsets are Python floats
carrying non-negative second counts; they are modelled as rationals, on
which `t // 60` is `⌊t / 60⌋` and `t % 60` is `t - 60 * ⌊t / 60⌋`, and
`int` of those non-negative results is the floor.
-/

/-- One transcript snippet: `{ start offset in seconds, text }`. -/
structure TranscriptEntry where
  start : Rat
  text : List Char

/-- Zero-padded decimal rendering of width 2 — Python `f"{n:02d}"` (for
the width-2 case; wider values render unpadded). -/
def pad2 (n : Int) : List Char :=
  let s := (toString n).toList
  if s.length < 2 then '0' :: s else s

/-- Formatting of one entry (src/tools.py lines 97-104):
`minutes = int(timestamp // 60)`, `seconds = int(timestamp % 60)`,
`f"[{minutes:02d}:{seconds:02d}], {text}"` when timestamps are on,
the raw text otherwise. -/
def formatEntry (include_timestamps : Bool) (e : TranscriptEntry) : List Char :=
  if include_timestamps then
    '[' :: pad2 (Int.floor (e.start / 60)) ++
      ':' :: pad2 (Int.floor (e.start - 60 * Int.floor (e.start / 60))) ++
      "], ".toList ++ e.text
  else e.text

/-- `'\n'.join(lines)`. -/
def joinLines : List (List Char) → List Char
  | [] => []
  | [l] => l
  | l :: ls => l ++ '\n' :: joinLines ls

/-- Outcome of the transcript-provider interaction for one video id. -/
inductive TranscriptOutcome where
  | disabled
  | notFound
  | failure (msg : List Char)
  | entries (es : List TranscriptEntry)

/-- `_get_video_transcript`: formats the fetched entries, and maps each
provider failure to the exception message raised on lines 108-113. -/
def get_video_transcript (fetch : List Char → TranscriptOutcome)
    (video_id : List Char) (include_timestamps : Bool) :
    Except (List Char) (List Char) :=
  match fetch video_id with
  | .disabled =>
    Except.error ("Transcripts are disabled for video ".toList ++ video_id)
  | .notFound =>
    Except.error ("No transcript found for video ".toList ++ video_id)
  | .failure e => Except.error ("Error fetching transcript: ".toList ++ e)
  | .entries es =>
    Except.ok (joinLines (es.map (formatEntry include_timestamps)))

/-!
## `analyze_youtube_video` (src/tools.py lines 116-163)
-/

/-- Environment for the two video oracles used by `analyze_youtube_video`. -/
structure ToolEnv where
  providerInfo : List Char → Except (List Char) ProviderInfo
  transcriptOutcome : List Char → TranscriptOutcome

/-- `f"{view_count:,}"` — decimal digits grouped in threes by commas. -/
def chunk3 : List Char → List (List Char)
  | [] => []
  | [a] => [[a]]
  | [a, b] => [[a, b]]
  | a :: b :: c :: rest => [a, b, c] :: chunk3 rest

/-- Thousands-separator rendering of a natural number. -/
def formatComma (n : Nat) : List Char :=
  (List.intercalate [','] (chunk3 (toString n).toList.reverse)).reverse

/-- `metadata['description'][:500]` plus an ellipsis marker when the
description is longer than 500 characters (line 149). -/
def descBlock (d : List Char) : List Char :=
  d.take 500 ++ (if 500 < d.length then "...".toList else [])

/-- `', '.join(metadata['tags'][:10]) if metadata['tags'] else 'None'`
(line 152). -/
def tagsBlock (tags : List (List Char)) : List Char :=
  if tags.isEmpty then "None".toList
  else List.intercalate ", ".toList (tags.take 10)

/-- The success document of `analyze_youtube_video` (lines 141-156). -/
def renderVideoDoc (md : VideoMetadata) (transcript : List Char) : List Char :=
  "# Video Information\nTitle: ".toList ++ md.title ++
  "\nUploader: ".toList ++ md.uploader ++
  "\nDuration: ".toList ++ (toString md.duration).toList ++
  " seconds\nViews: ".toList ++ formatComma md.view_count ++
  "\nUpload Date: ".toList ++ md.upload_date ++
  "\n\n## Description\n".toList ++ descBlock md.description ++
  "\n\n## Tags\n".toList ++ tagsBlock md.tags ++
  "\n\n## Full Transcript\n".toList ++ transcript ++ "\n".toList

/-- `analyze_youtube_video`: `ValueError` (only raised by
`_extract_video_id`) maps to the `Invalid YouTube URL` string, every other
exception to the `Error analyzing video` string; otherwise the formatted
document is returned. Always returns text. -/
def analyze_youtube_video (env : ToolEnv) (url : List Char) : List Char :=
  match extract_video_id url with
  | .error e => "Error: Invalid YouTube URL - ".toList ++ e
  | .ok vid =>
    match env.providerInfo vid with
    | .error e => "Error analyzing video: ".toList ++ e
    | .ok info =>
      match get_video_transcript env.transcriptOutcome vid true with
      | .error e => "Error analyzing video: ".toList ++ e
      | .ok tr => renderVideoDoc (metadata_of_info info) tr

/-!
## `fetch_web_page` (src/tools.py lines 170-225)

URL validation (urllib), the HTTP fetch (requests) and the HTML-to-text
conversion (BeautifulSoup + html2text) are third-party collaborators,
modelled as oracles. The whitespace cleanup
`re.sub(r'\n\s*\n', '\n\n', text)`, the `strip()` and the truncation
(lines 212-218) are embedded.

`re.sub` scans left to right for non-overlapping matches of `\n\s*\n`;
`\s*` is greedy, so a match starting at a newline extends to the last
newline inside the whitespace run that follows it, and fails if that run
contains no further newline. Each match is replaced by `"\n\n"` and
scanning resumes after the match.
-/

/-- Python `\s` (the ASCII whitespace characters; the pages processed by
the tool are modelled over this set). -/
def isPySpace (c : Char) : Bool :=
  c == ' ' || c == '\t' || c == '\n' || c == '\r' ||
  c == '\x0b' || c == '\x0c'

/-- The greedy `\s*\n` tail of a match of `\n\s*\n`: consume whitespace,
returning the remainder after the last newline reachable inside the run;
`none` when the run contains no newline (the overall match then fails). -/
def blankRun : List Char → Option (List Char)
  | [] => none
  | c :: rest =>
    if c == '\n' then
      match blankRun rest with
      | some r => some r
      | none => some rest
    else if isPySpace c then blankRun rest
    else none

/-- Fuel-indexed worker for the `re.sub` scan (fuel makes the jump over a
matched run structurally recursive; `collapseBlank` supplies enough fuel,
so the `0` case is never reached from it). -/
def collapseBlankAux : Nat → List Char → List Char
  | 0, _ => []
  | _, [] => []
  | fuel + 1, c :: rest =>
    if c == '\n' then
      match blankRun rest with
      | some r => '\n' :: '\n' :: collapseBlankAux fuel r
      | none => c :: collapseBlankAux fuel rest
    else c :: collapseBlankAux fuel rest

/-- `re.sub(r'\n\s*\n', '\n\n', text)` (src/tools.py line 213). -/
def collapseBlank (s : List Char) : List Char :=
  collapseBlankAux s.length s

/-- `text.strip()` (src/tools.py line 214). -/
def stripText (s : List Char) : List Char :=
  ((s.dropWhile isPySpace).reverse.dropWhile isPySpace).reverse

/-- Whether a list ends in a non-whitespace character (the shape of the
text fragments on either side of a blank-line run). -/
def endsNonSpace : List Char → Bool
  | [] => false
  | [a] => !isPySpace a
  | _ :: rest => endsNonSpace rest

/-- The truncation marker appended on line 218. -/
def truncationMarker : List Char := "\n\n[Content truncated...]".toList

/-- Truncation of over-long page text (src/tools.py lines 217-218). -/
def truncateContent (t : List Char) : List Char :=
  if 20000 < t.length then t.take 20000 ++ truncationMarker else t

/-- The whole cleanup applied to the converted markdown text
(src/tools.py lines 212-218). -/
def cleanPageText (t : List Char) : List Char :=
  truncateContent (stripText (collapseBlank t))

/-- Environment for the third-party collaborators of `fetch_web_page`:
`urlparse` scheme/netloc presence, `requests.get` + `raise_for_status`
(content, or the `RequestException` message), and the
BeautifulSoup/html2text conversion (markdown text, or the message of any
exception it raises). -/
structure FetchEnv where
  urlHasSchemeAndHost : List Char → Bool
  httpGet : List Char → Except (List Char) (List Char)
  htmlToText : List Char → Except (List Char) (List Char)

/-- `fetch_web_page`: invalid URL, fetch failure and parse failure each
collapse to a descriptive string; otherwise the cleaned, size-capped text
is returned. Always returns text. -/
def fetch_web_page (env : FetchEnv) (url : List Char) : List Char :=
  if !env.urlHasSchemeAndHost url then "Invalid URL: ".toList ++ url
  else
    match env.httpGet url with
    | .error e => "Error fetching web page: ".toList ++ e
    | .ok content =>
      match env.htmlToText content with
      | .error e => "Error parsing web page: ".toList ++ e
      | .ok text => cleanPageText text

/-!
## src/app.py: `is_youtube_url` and `process_url`

`run_fact_checker` (the smolagents CodeAgent), `datetime.now` and the
temp-file write are collaborators, modelled in `AppEnv`; exceptions are
`Except.error` carrying `str(e)`.
-/

/-- Scan for a literal substring, modelling `re.search` with a literal
pattern. -/
def containsLit (p : List Char) : List Char → Bool
  | [] => p.isEmpty
  | c :: rest => isPfx p (c :: rest) || containsLit p rest

/-- `is_youtube_url` (src/app.py lines 15-17):
`re.search(r'(youtube\.com|youtu\.be)', url)`. -/
def is_youtube_url (url : List Char) : Bool :=
  containsLit "youtube.com".toList url || containsLit "youtu.be".toList url

/-- Environment for `process_url`'s collaborators. -/
structure AppEnv where
  runFactChecker : List Char → Bool → Except (List Char) (List Char)
  transcriptOutcome : List Char → TranscriptOutcome
  fetchEnv : FetchEnv
  writeFile : List Char → List Char → Except (List Char) (List Char)
  nowStamp : List Char

/-- The YouTube branch of the download-file generation
(src/app.py lines 46-50): extract the id, fetch the transcript with the
requested timestamp mode, write `transcript_<id>.txt`. -/
def downloadYoutube (env : AppEnv) (surl : List Char)
    (include_timestamps : Bool) : Except (List Char) (List Char) :=
  match extract_video_id surl with
  | .error e => Except.error e
  | .ok vid =>
    match get_video_transcript env.transcriptOutcome vid include_timestamps with
    | .error e => Except.error e
    | .ok txt =>
      env.writeFile ("transcript_".toList ++ vid ++ ".txt".toList) txt

/-- The web-page branch of the download-file generation
(src/app.py lines 52-56): fetch the page text (which never raises) and
write `webpage_<timestamp>.txt`. -/
def downloadWebpage (env : AppEnv) (surl : List Char) :
    Except (List Char) (List Char) :=
  env.writeFile ("webpage_".toList ++ env.nowStamp ++ ".txt".toList)
    (fetch_web_page env.fetchEnv surl)

/-- The guarded download-file generation (src/app.py lines 44-64),
routed by `is_youtube_url`. -/
def downloadGen (env : AppEnv) (surl : List Char) (include_timestamps : Bool) :
    Except (List Char) (List Char) :=
  if is_youtube_url surl then downloadYoutube env surl include_timestamps
  else downloadWebpage env surl

/-- The remediation hint of the top-level error handler
(src/app.py line 72). -/
def hintText : List Char :=
  ("\n\nPlease check that:\n1. The URL is valid\n" ++
   "2. Environment variables are set (OPENROUTER_API_KEY, SERPER_API_KEY)").toList

/-- `process_url` (src/app.py lines 20-72): empty-input guard, agent run,
optional download artifact whose failure is appended as a note instead of
replacing the result. -/
def process_url (env : AppEnv) (url : List Char)
    (enable_fact_check enable_download include_timestamps : Bool) :
    List Char × Option (List Char) :=
  if url.isEmpty || (stripText url).isEmpty then
    ("Please enter a URL to analyze.".toList, none)
  else
    match env.runFactChecker (stripText url) enable_fact_check with
    | .error e => ("Error processing URL: ".toList ++ e ++ hintText, none)
    | .ok result =>
      if enable_download then
        match downloadGen env (stripText url) include_timestamps with
        | .ok path => (result, some path)
        | .error e =>
          (result ++ "\n\n[Note: Could not generate download file: ".toList ++
            e ++ "]".toList, none)
      else (result, none)

/-- A concrete fetch environment whose oracles all succeed, used to
instantiate universally quantified theorems. -/
def sampleFetchEnv : FetchEnv where
  urlHasSchemeAndHost := fun _ => true
  httpGet := fun _ => Except.ok "<p>hi</p>".toList
  htmlToText := fun _ => Except.ok "hi".toList

/-- A concrete environment used to instantiate universally quantified
theorems: the agent succeeds with `OK`, transcripts are disabled, the
HTTP fetch fails, the file write fails with `disk full`. -/
def sampleAppEnv : AppEnv where
  runFactChecker := fun _ _ => Except.ok "OK".toList
  transcriptOutcome := fun _ => TranscriptOutcome.disabled
  fetchEnv :=
    { urlHasSchemeAndHost := fun _ => true
      httpGet := fun _ => Except.error "connection refused".toList
      htmlToText := fun c => Except.ok c }
  writeFile := fun _ _ => Except.error "disk full".toList
  nowStamp := "20260101_000000".toList

theorem isPfx_append_self (p t : List Char) : isPfx p (p ++ t) = true := by
  induction p with
  | nil => rfl
  | cons a as ih => simp [isPfx, ih]

theorem isPfx_iff_exists (p s : List Char) :
    isPfx p s = true ↔ ∃ t, s = p ++ t := by
  induction p generalizing s with
  | nil => simp [isPfx]
  | cons a as ih =>
    cases s with
    | nil =>
      simp only [isPfx]
      constructor
      · intro h; cases h
      · rintro ⟨t, ht⟩; cases ht
    | cons b bs =>
      simp only [isPfx, Bool.and_eq_true, beq_iff_eq, ih]
      constructor
      · rintro ⟨rfl, t, rfl⟩; exact ⟨t, rfl⟩
      · rintro ⟨t, ht⟩
        injection ht with h1 h2
        exact ⟨h1.symm, t, h2⟩

theorem isPfx_mem {p s : List Char} (h : isPfx p s = true) :
    ∀ c ∈ p, c ∈ s := by
  rcases (isPfx_iff_exists p s).1 h with ⟨t, rfl⟩
  intro c hc
  exact List.mem_append.2 (Or.inl hc)

theorem isPfx_head_ne {a b : Char} {as bs : List Char} (h : a ≠ b) :
    isPfx (a :: as) (b :: bs) = false := by
  have hb : (a == b) = false := beq_eq_false_iff_ne.mpr h
  simp [isPfx, hb]

theorem searchPat1_cons (c : Char) (rest : List Char) :
    searchPat1 (c :: rest) =
      match tryPat1At (c :: rest) with
      | some r => some r
      | none => searchPat1 rest := rfl

theorem searchPat2_cons (c : Char) (rest : List Char) :
    searchPat2 (c :: rest) =
      if isPfx patWatchAny (c :: rest) then
        match pat2Find ((c :: rest).drop patWatchAny.length) with
        | some r => some r
        | none => searchPat2 rest
      else searchPat2 rest := rfl

theorem pat2Find_cons (c : Char) (rest : List Char) :
    pat2Find (c :: rest) =
      match (if c == '\n' then none else pat2Find rest) with
      | some r => some r
      | none =>
        if c == 'v' then
          match rest with
          | [] => none
          | d :: rest2 =>
            if d == '=' then
              let cap := rest2.takeWhile notAmp
              if cap.isEmpty then none else some cap
            else none
        else none := rfl

theorem isYtIdChar_imp_notDelim1 {c : Char} (h : isYtIdChar c = true) :
    notDelim1 c = true := by
  by_cases h1 : c = '&'
  · subst h1; exact absurd h (by decide)
  by_cases h2 : c = '?'
  · subst h2; exact absurd h (by decide)
  by_cases h3 : c = '/'
  · subst h3; exact absurd h (by decide)
  simp [notDelim1, h1, h2, h3]

theorem tryPat1At_watch (X : List Char) (hne : X ≠ [])
    (hX : ∀ c ∈ X, notDelim1 c = true) :
    tryPat1At (patWatch ++ X) = some X := by
  show (if (X.takeWhile notDelim1).isEmpty then none
        else some (X.takeWhile notDelim1)) = some X
  rw [List.takeWhile_eq_self_iff.mpr hX]
  cases X with
  | nil => exact absurd rfl hne
  | cons c cs => rfl

theorem tryPat1At_short (X : List Char) (hne : X ≠ [])
    (hX : ∀ c ∈ X, notDelim1 c = true) :
    tryPat1At (patShort ++ X) = some X := by
  show (if (X.takeWhile notDelim1).isEmpty then none
        else some (X.takeWhile notDelim1)) = some X
  rw [List.takeWhile_eq_self_iff.mpr hX]
  cases X with
  | nil => exact absurd rfl hne
  | cons c cs => rfl

theorem tryPat1At_embed (X : List Char) (hne : X ≠ [])
    (hX : ∀ c ∈ X, notDelim1 c = true) :
    tryPat1At (patEmbed ++ X) = some X := by
  show (if (X.takeWhile notDelim1).isEmpty then none
        else some (X.takeWhile notDelim1)) = some X
  rw [List.takeWhile_eq_self_iff.mpr hX]
  cases X with
  | nil => exact absurd rfl hne
  | cons c cs => rfl

theorem searchPat1_watch_full (X : List Char) (hne : X ≠ [])
    (hX : ∀ c ∈ X, notDelim1 c = true) :
    searchPat1 ("https://www.youtube.com/watch?v=".toList ++ X) = some X := by
  have hskip : searchPat1 ("https://www.youtube.com/watch?v=".toList ++ X)
      = searchPat1 (patWatch ++ X) := rfl
  have hcons : patWatch ++ X = 'y' :: ("outube.com/watch?v=".toList ++ X) := rfl
  rw [hskip, hcons, searchPat1_cons]
  rw [show 'y' :: ("outube.com/watch?v=".toList ++ X) = patWatch ++ X from rfl,
    tryPat1At_watch X hne hX]

theorem searchPat1_short_full (X : List Char) (hne : X ≠ [])
    (hX : ∀ c ∈ X, notDelim1 c = true) :
    searchPat1 ("https://youtu.be/".toList ++ X) = some X := by
  have hskip : searchPat1 ("https://youtu.be/".toList ++ X)
      = searchPat1 (patShort ++ X) := rfl
  have hcons : patShort ++ X = 'y' :: ("outu.be/".toList ++ X) := rfl
  rw [hskip, hcons, searchPat1_cons]
  rw [show 'y' :: ("outu.be/".toList ++ X) = patShort ++ X from rfl,
    tryPat1At_short X hne hX]

theorem searchPat1_embed_full (X : List Char) (hne : X ≠ [])
    (hX : ∀ c ∈ X, notDelim1 c = true) :
    searchPat1 ("https://www.youtube.com/embed/".toList ++ X) = some X := by
  have hskip : searchPat1 ("https://www.youtube.com/embed/".toList ++ X)
      = searchPat1 (patEmbed ++ X) := rfl
  have hcons : patEmbed ++ X = 'y' :: ("outube.com/embed/".toList ++ X) := rfl
  rw [hskip, hcons, searchPat1_cons]
  rw [show 'y' :: ("outube.com/embed/".toList ++ X) = patEmbed ++ X from rfl,
    tryPat1At_embed X hne hX]

theorem extract_of_searchPat1 {url r : List Char} (h : searchPat1 url = some r) :
    extract_video_id url = Except.ok r := by
  simp [extract_video_id, h]

/-- C2: for every identifier X (non-empty, over the YouTube id charset),
URLs of the accepted shapes `watch?v=X`, `youtu.be/X`, `embed/X` extract
exactly X; any URL on which neither regex matches raises `ValueError`
(`InvalidUrl`); the two patterns are tried in first-pattern-wins priority
order, and the fallback pattern tolerates extra query parameters before
`v=` (concrete instance). -/
theorem extract_video_id_spec :
    (∀ X : List Char, X ≠ [] → (∀ c ∈ X, isYtIdChar c = true) →
      extract_video_id ("https://www.youtube.com/watch?v=".toList ++ X)
          = Except.ok X ∧
      extract_video_id ("https://youtu.be/".toList ++ X) = Except.ok X ∧
      extract_video_id ("https://www.youtube.com/embed/".toList ++ X)
          = Except.ok X) ∧
    (∀ url : List Char, searchPat1 url = none → searchPat2 url = none →
      extract_video_id url
        = Except.error ("Could not extract video ID from URL: ".toList ++ url)) ∧
    (∀ url r : List Char, searchPat1 url = some r →
      extract_video_id url = Except.ok r) ∧
    extract_video_id "https://www.youtube.com/watch?foo=1&v=zz9".toList
      = Except.ok "zz9".toList ∧
    extract_video_id "https://example.com/watch?v=abc".toList
      = Except.error ("Could not extract video ID from URL: ".toList
          ++ "https://example.com/watch?v=abc".toList) := by
  refine ⟨?_, ?_, ?_, rfl, rfl⟩
  · intro X hne hX
    have hX' : ∀ c ∈ X, notDelim1 c = true :=
      fun c hc => isYtIdChar_imp_notDelim1 (hX c hc)
    exact ⟨extract_of_searchPat1 (searchPat1_watch_full X hne hX'),
      extract_of_searchPat1 (searchPat1_short_full X hne hX'),
      extract_of_searchPat1 (searchPat1_embed_full X hne hX')⟩
  · intro url h1 h2
    simp [extract_video_id, h1, h2]
  · intro url r h
    exact extract_of_searchPat1 h

/-- C2 witness: concrete instantiation of the universally quantified parts
of `extract_video_id_spec`. -/
theorem extract_video_id_spec_witness :
    extract_video_id ("https://youtu.be/".toList ++ "dQw4w9WgXcQ".toList)
      = Except.ok "dQw4w9WgXcQ".toList :=
  ((extract_video_id_spec.1 "dQw4w9WgXcQ".toList (by decide) (by decide)).2).1

/-!
## The id-syntax invariant (C6)

The spec claims every successfully extracted id matches `[A-Za-z0-9_-]+`.
The code only guarantees: non-empty, and free of the delimiter characters
of the capturing character class of the matching pattern (`&`, `?`, `/`
for pattern 1; `&` for pattern 2).
-/

theorem tryPat1At_some_inv {s r : List Char} (h : tryPat1At s = some r) :
    r ≠ [] ∧ ∀ c ∈ r, notDelim1 c = true := by
  unfold tryPat1At at h
  split at h
  · set cap := (s.drop patWatch.length).takeWhile notDelim1 with hcap
    by_cases hc : cap.isEmpty
    · simp [hc] at h
    · simp [hc] at h
      subst h
      refine ⟨fun hnil => hc (by simp [hnil]), fun c hc' => ?_⟩
      exact List.mem_takeWhile_imp hc'
  · split at h
    · set cap := (s.drop patShort.length).takeWhile notDelim1 with hcap
      by_cases hc : cap.isEmpty
      · simp [hc] at h
      · simp [hc] at h
        subst h
        refine ⟨fun hnil => hc (by simp [hnil]), fun c hc' => ?_⟩
        exact List.mem_takeWhile_imp hc'
    · split at h
      · set cap := (s.drop patEmbed.length).takeWhile notDelim1 with hcap
        by_cases hc : cap.isEmpty
        · simp [hc] at h
        · simp [hc] at h
          subst h
          refine ⟨fun hnil => hc (by simp [hnil]), fun c hc' => ?_⟩
          exact List.mem_takeWhile_imp hc'
      · exact absurd h (by simp)

theorem searchPat1_some_inv :
    ∀ {s r : List Char}, searchPat1 s = some r →
      r ≠ [] ∧ ∀ c ∈ r, notDelim1 c = true := by
  intro s
  induction s with
  | nil => intro r h; cases h
  | cons c rest ih =>
    intro r h
    rw [searchPat1_cons] at h
    cases htry : tryPat1At (c :: rest) with
    | some q =>
      rw [htry] at h
      cases h
      exact tryPat1At_some_inv htry
    | none =>
      rw [htry] at h
      exact ih h

theorem pat2Find_some_inv :
    ∀ {s r : List Char}, pat2Find s = some r →
      r ≠ [] ∧ ∀ c ∈ r, notAmp c = true := by
  intro s
  induction s with
  | nil => intro r h; cases h
  | cons c rest ih =>
    intro r h
    rw [pat2Find_cons] at h
    cases hin : (if c == '\n' then none else pat2Find rest) with
    | some q =>
      rw [hin] at h
      cases h
      have : pat2Find rest = some r := by
        by_cases hc : c == '\n'
        · simp [hc] at hin
        · simpa [hc] using hin
      exact ih this
    | none =>
      rw [hin] at h
      by_cases hv : c == 'v'
      · simp only [hv, if_true] at h
        cases rest with
        | nil => cases h
        | cons d rest2 =>
          by_cases hd : d == '='
          · simp only [hd, if_true] at h
            by_cases he : (rest2.takeWhile notAmp).isEmpty
            · simp [he] at h
            · simp only [he, if_false] at h
              cases h
              refine ⟨fun hnil => he (by simp [hnil]), fun a ha => ?_⟩
              exact List.mem_takeWhile_imp ha
          · simp [hd] at h
      · simp [hv] at h

theorem searchPat2_some_inv :
    ∀ {s r : List Char}, searchPat2 s = some r →
      r ≠ [] ∧ ∀ c ∈ r, notAmp c = true := by
  intro s
  induction s with
  | nil => intro r h; cases h
  | cons c rest ih =>
    intro r h
    rw [searchPat2_cons] at h
    by_cases hp : isPfx patWatchAny (c :: rest)
    · simp only [hp, if_true] at h
      cases hfind : pat2Find ((c :: rest).drop patWatchAny.length) with
      | some q =>
        rw [hfind] at h
        cases h
        exact pat2Find_some_inv hfind
      | none =>
        rw [hfind] at h
        exact ih h
    · simp only [hp, if_false] at h
      exact ih h

theorem notDelim1_imp_notAmp {c : Char} (h : notDelim1 c = true) :
    notAmp c = true := by
  simp only [notDelim1, Bool.and_eq_true, Bool.not_eq_true'] at h
  simp [notAmp, h.1.1]

/-- C6 (amended): every successfully extracted video id is non-empty and
contains no `&` character (ids produced by the primary pattern in addition
contain no `?` and no `/`); extraction fails explicitly whenever neither
pattern matches. -/
theorem extract_video_id_invariant :
    (∀ url r : List Char, extract_video_id url = Except.ok r →
      r ≠ [] ∧ ∀ c ∈ r, notAmp c = true) ∧
    (∀ url r : List Char, searchPat1 url = some r →
      r ≠ [] ∧ ∀ c ∈ r, notDelim1 c = true) ∧
    (∀ url : List Char, searchPat1 url = none → searchPat2 url = none →
      extract_video_id url
        = Except.error ("Could not extract video ID from URL: ".toList ++ url)) := by
  refine ⟨?_, fun url r h => searchPat1_some_inv h, ?_⟩
  · intro url r h
    unfold extract_video_id at h
    cases h1 : searchPat1 url with
    | some q =>
      rw [h1] at h
      cases h
      have := searchPat1_some_inv h1
      exact ⟨this.1, fun c hc => notDelim1_imp_notAmp (this.2 c hc)⟩
    | none =>
      rw [h1] at h
      cases h2 : searchPat2 url with
      | some q =>
        rw [h2] at h
        cases h
        exact searchPat2_some_inv h2
      | none =>
        rw [h2] at h
        cases h
  · intro url h1 h2
    simp [extract_video_id, h1, h2]

/-- C6 witness: the invariant instantiated at a concrete successful
extraction. -/
theorem extract_video_id_invariant_witness :
    "abc123".toList ≠ [] ∧ ∀ c ∈ "abc123".toList, notAmp c = true :=
  extract_video_id_invariant.1 "https://youtu.be/abc123".toList "abc123".toList
    (by rfl)

/-- C6 counterexample: the claimed `[A-Za-z0-9_-]+` invariant fails: the
URL `https://www.youtube.com/watch?v=a.b` extracts successfully, yet the
extracted id contains `.`, which is outside the claimed character class. -/
theorem extract_video_id_charset_counterexample :
    extract_video_id "https://www.youtube.com/watch?v=a.b".toList
        = Except.ok "a.b".toList ∧
    '.' ∈ "a.b".toList ∧ isYtIdChar '.' = false :=
  ⟨rfl, by decide, by decide⟩

/-- C5 (amended): fields absent from the provider default to `"Unknown"`
for title and uploader, the empty string for description and upload_date,
zero for duration, view_count and like_count, and the empty list for
tags. -/
theorem metadata_defaults :
    ∀ info : ProviderInfo,
      (info.title = none → (metadata_of_info info).title = "Unknown".toList) ∧
      (info.uploader = none →
        (metadata_of_info info).uploader = "Unknown".toList) ∧
      (info.description = none → (metadata_of_info info).description = []) ∧
      (info.upload_date = none → (metadata_of_info info).upload_date = []) ∧
      (info.duration = none → (metadata_of_info info).duration = 0) ∧
      (info.view_count = none → (metadata_of_info info).view_count = 0) ∧
      (info.like_count = none → (metadata_of_info info).like_count = 0) ∧
      (info.tags = none → (metadata_of_info info).tags = []) := by
  intro info
  refine ⟨?_, ?_, ?_, ?_, ?_, ?_, ?_, ?_⟩ <;>
    intro h <;> simp [metadata_of_info, h]

/-- C5 counterexample: with all provider fields absent, the assembled
title (and uploader) is `"Unknown"`, not the empty string the claim
states. -/
theorem metadata_defaults_counterexample :
    (metadata_of_info ⟨none, none, none, none, none, none, none, none⟩).title
        = "Unknown".toList ∧
    (metadata_of_info
        ⟨none, none, none, none, none, none, none, none⟩).uploader
        = "Unknown".toList ∧
    "Unknown".toList ≠ ([] : List Char) :=
  ⟨rfl, rfl, by decide⟩

/-- C5 witness: the amended defaults at the all-absent provider record. -/
theorem metadata_defaults_witness :
    (metadata_of_info
        ⟨none, none, none, none, none, none, none, none⟩).description = [] ∧
    (metadata_of_info
        ⟨none, none, none, none, none, none, none, none⟩).duration = 0 ∧
    (metadata_of_info ⟨none, none, none, none, none, none, none, none⟩).tags
        = [] :=
  ⟨(metadata_defaults ⟨none, none, none, none, none, none, none, none⟩).2.2.1
      rfl,
   (metadata_defaults
      ⟨none, none, none, none, none, none, none, none⟩).2.2.2.2.1 rfl,
   (metadata_defaults
      ⟨none, none, none, none, none, none, none, none⟩).2.2.2.2.2.2.2 rfl⟩

/-- C3: the output of the truncation stage never exceeds 20000 characters
plus the fixed marker; the marker is appended to the first 20000
characters exactly when the cleaned text exceeds 20000 characters (and
the text is returned unchanged otherwise); on the success path
`fetch_web_page` returns exactly the truncation of the cleaned text. -/
theorem fetch_truncation_spec :
    (∀ t : List Char,
      (truncateContent t).length ≤ 20000 + truncationMarker.length) ∧
    (∀ t : List Char,
      truncateContent t = t.take 20000 ++ truncationMarker ↔
        20000 < t.length) ∧
    (∀ t : List Char, t.length ≤ 20000 → truncateContent t = t) ∧
    (∀ (env : FetchEnv) (url content text : List Char),
      env.urlHasSchemeAndHost url = true →
      env.httpGet url = Except.ok content →
      env.htmlToText content = Except.ok text →
      fetch_web_page env url
        = truncateContent (stripText (collapseBlank text))) := by
  refine ⟨?_, ?_, ?_, ?_⟩
  · intro t
    by_cases h : 20000 < t.length
    · rw [truncateContent, if_pos h]
      simp only [List.length_append, List.length_take]
      omega
    · rw [truncateContent, if_neg h]
      omega
  · intro t
    constructor
    · intro heq
      by_contra hle
      push_neg at hle
      rw [truncateContent, if_neg (by omega)] at heq
      have := congrArg List.length heq
      simp only [List.length_append, List.length_take] at this
      have hm : truncationMarker.length = 24 := by decide
      omega
    · intro h
      rw [truncateContent, if_pos h]
  · intro t h
    rw [truncateContent, if_neg (by omega)]
  · intro env url content text h1 h2 h3
    simp [fetch_web_page, h1, h2, h3, cleanPageText]

/-- C3 witness: a 20001-character text is truncated with the marker, a
short text is returned unchanged, and a concrete success-path fetch
returns the truncated cleaned text. -/
theorem fetch_truncation_spec_witness :
    (truncateContent (List.replicate 20001 'a')
      = (List.replicate 20001 'a').take 20000 ++ truncationMarker) ∧
    truncateContent "short".toList = "short".toList ∧
    fetch_web_page sampleFetchEnv "https://example.com".toList
      = truncateContent (stripText (collapseBlank "hi".toList)) :=
  ⟨(fetch_truncation_spec.2.1 (List.replicate 20001 'a')).mpr
     (by rw [List.length_replicate]; omega),
   fetch_truncation_spec.2.2.1 "short".toList (by decide),
   fetch_truncation_spec.2.2.2 sampleFetchEnv "https://example.com".toList
     "<p>hi</p>".toList "hi".toList rfl rfl rfl⟩

/-- C8: an empty or whitespace-only URL short-circuits `process_url`: for
every environment (hence independently of the agent and of any network
collaborator) the result is exactly the prompt text, with no download
file. -/
theorem process_url_empty_input :
    ∀ (env : AppEnv) (url : List Char)
      (enable_fact_check enable_download include_timestamps : Bool),
      stripText url = [] →
      process_url env url enable_fact_check enable_download
          include_timestamps
        = ("Please enter a URL to analyze.".toList, none) := by
  intro env url f d t h
  have h' : (stripText url).isEmpty = true := by simp [h]
  simp [process_url, h']

/-- C8 witness: a whitespace-only URL at a concrete environment. -/
theorem process_url_empty_input_witness :
    process_url sampleAppEnv "   ".toList true true true
      = ("Please enter a URL to analyze.".toList, none) :=
  process_url_empty_input sampleAppEnv "   ".toList true true true (by decide)

/-- C9: when the agent run succeeds and the download-file generation
fails, the analysis result is preserved: the failure note is appended and
the file handle is `none`; the download failure never discards the
analysis. -/
theorem process_url_download_failure :
    ∀ (env : AppEnv) (url r e : List Char) (efc ts : Bool),
      (url.isEmpty || (stripText url).isEmpty) = false →
      env.runFactChecker (stripText url) efc = Except.ok r →
      downloadGen env (stripText url) ts = Except.error e →
      process_url env url efc true ts
        = (r ++ "\n\n[Note: Could not generate download file: ".toList ++
            e ++ "]".toList, none) := by
  intro env url r e efc ts h0 h1 h2
  simp [process_url, h0, h1, h2]

/-- C9 witness: a concrete YouTube URL whose transcript fetch fails while
the agent run succeeded. -/
theorem process_url_download_failure_witness :
    process_url sampleAppEnv "https://youtu.be/abc".toList false true true
      = ("OK".toList ++ "\n\n[Note: Could not generate download file: ".toList
          ++ "Transcripts are disabled for video abc".toList ++ "]".toList,
         none) :=
  process_url_download_failure sampleAppEnv "https://youtu.be/abc".toList
    "OK".toList "Transcripts are disabled for video abc".toList false true
    (by decide) (by rfl) (by rfl)

theorem containsLit_iff (p : List Char) :
    ∀ s, containsLit p s = true ↔ ∃ a b, s = a ++ (p ++ b) := by
  intro s
  induction s with
  | nil =>
    simp only [containsLit, List.isEmpty_iff]
    constructor
    · rintro rfl; exact ⟨[], [], rfl⟩
    · rintro ⟨a, b, h⟩
      rcases List.append_eq_nil.mp h.symm with ⟨rfl, h2⟩
      rcases List.append_eq_nil.mp h2 with ⟨rfl, rfl⟩
      rfl
  | cons c rest ih =>
    simp only [containsLit, Bool.or_eq_true, isPfx_iff_exists, ih]
    constructor
    · rintro (⟨t, ht⟩ | ⟨a, b, rfl⟩)
      · exact ⟨[], t, by simpa using ht⟩
      · exact ⟨c :: a, b, rfl⟩
    · rintro ⟨a, b, h⟩
      cases a with
      | nil => exact Or.inl ⟨b, by simpa using h⟩
      | cons a0 as =>
        injection h with h1 h2
        subst h1
        exact Or.inr ⟨as, b, h2⟩

/-- C10: the download artifact is routed by substring matching alone: a
URL counts as a YouTube video exactly when it contains `youtube.com` or
`youtu.be` anywhere in it, in which case the artifact is the transcript
branch; every other URL goes to the page-text branch. -/
theorem download_routing_spec :
    (∀ url : List Char, is_youtube_url url = true ↔
      ((∃ a b, url = a ++ ("youtube.com".toList ++ b)) ∨
       (∃ a b, url = a ++ ("youtu.be".toList ++ b)))) ∧
    (∀ (env : AppEnv) (url : List Char) (ts : Bool),
      is_youtube_url url = true →
      downloadGen env url ts = downloadYoutube env url ts) ∧
    (∀ (env : AppEnv) (url : List Char) (ts : Bool),
      is_youtube_url url = false →
      downloadGen env url ts = downloadWebpage env url) := by
  refine ⟨?_, ?_, ?_⟩
  · intro url
    simp only [is_youtube_url, Bool.or_eq_true, containsLit_iff]
  · intro env url ts h
    simp [downloadGen, h]
  · intro env url ts h
    simp [downloadGen, h]

/-- C10 witness: substring matching routes a URL whose host is not
YouTube but which contains `youtube.com` in its path to the transcript
branch, and a URL without the substrings to the page branch. -/
theorem download_routing_spec_witness :
    downloadGen sampleAppEnv "https://evil.example/youtube.com/x".toList true
      = downloadYoutube sampleAppEnv
          "https://evil.example/youtube.com/x".toList true ∧
    downloadGen sampleAppEnv "https://example.org/a".toList true
      = downloadWebpage sampleAppEnv "https://example.org/a".toList :=
  ⟨download_routing_spec.2.1 sampleAppEnv
      "https://evil.example/youtube.com/x".toList true (by decide),
   download_routing_spec.2.2 sampleAppEnv "https://example.org/a".toList true
      (by decide)⟩

theorem floor_div_sixty (q : Rat) : Int.floor (q / 60) = Int.floor q / 60 := by
  refine eq_of_forall_le_iff (fun z => ?_)
  rw [Int.le_floor, Int.le_ediv_iff_mul_le (by norm_num : (0:Int) < 60),
    Int.le_floor, le_div_iff₀ (by norm_num : (0:Rat) < 60)]
  push_cast
  exact Iff.rfl

theorem floor_mod_sixty (q : Rat) :
    Int.floor (q - 60 * (Int.floor (q / 60) : Rat)) = Int.floor q % 60 := by
  have h1 : (60 : Rat) * (Int.floor (q / 60) : Rat)
      = ((60 * Int.floor (q / 60) : Int) : Rat) := by push_cast; ring
  rw [h1, Int.floor_sub_int, floor_div_sixty]
  omega

/-- C4: with timestamps on, an entry renders as `"[MM:SS], <text>"` where
MM and SS are the zero-padded minutes `⌊start⌋ / 60` and seconds
`⌊start⌋ % 60` — truncations of the start offset, not roundings — with
the seconds always in `[0, 60)` and both fields two digits wide below 100;
in particular a start offset of 75.9 renders with prefix `"[01:15], "`. -/
theorem transcript_timestamp_spec :
    (∀ e : TranscriptEntry,
      formatEntry true e
        = '[' :: pad2 (Int.floor e.start / 60) ++
            ':' :: pad2 (Int.floor e.start % 60) ++ "], ".toList ++ e.text ∧
      0 ≤ Int.floor e.start % 60 ∧ Int.floor e.start % 60 < 60) ∧
    (∀ n : Int, 0 ≤ n → n < 100 → (pad2 n).length = 2) ∧
    (∀ tx : List Char,
      formatEntry true { start := (759 : Rat) / 10, text := tx }
        = "[01:15], ".toList ++ tx) := by
  refine ⟨?_, ?_, ?_⟩
  · intro e
    refine ⟨?_, ?_, ?_⟩
    · simp only [formatEntry, if_true]
      rw [floor_mod_sixty, floor_div_sixty]
    · omega
    · omega
  · intro n h0 h1
    interval_cases n <;> rfl
  · intro tx
    have h1 : Int.floor ((759 : Rat) / 10 / 60) = 1 := by
      rw [floor_div_sixty]
      norm_num [Int.floor_eq_iff]
    have h2 : Int.floor ((759 : Rat) / 10
        - 60 * (Int.floor ((759 : Rat) / 10 / 60) : Rat)) = 15 := by
      rw [floor_mod_sixty]
      norm_num [Int.floor_eq_iff]
    simp only [formatEntry, if_true]
    rw [h2, h1]
    rfl

/-- C4 witness: the padding bound and the rendering equation instantiated
at the concrete 75.9-second entry. -/
theorem transcript_timestamp_spec_witness :
    (pad2 1).length = 2 ∧
    formatEntry true { start := (759 : Rat) / 10, text := "hello".toList }
      = "[01:15], ".toList ++ "hello".toList :=
  ⟨transcript_timestamp_spec.2.1 1 (by decide) (by decide),
   transcript_timestamp_spec.2.2 "hello".toList⟩

/-- C1: for every environment outcome and every URL, both tools are total
text-valued functions: each enumerated failure mode (id extraction,
metadata fetch, transcript fetch for the video tool; URL validation, HTTP
fetch, parse for the page tool) maps to its descriptive error string, the
success path returns the formatted document, and no other outcome
exists — no exception crosses the tool boundary. -/
theorem tools_always_return_text :
    (∀ (env : ToolEnv) (url : List Char),
      (∃ e, extract_video_id url = Except.error e ∧
        analyze_youtube_video env url
          = "Error: Invalid YouTube URL - ".toList ++ e) ∨
      (∃ vid e, extract_video_id url = Except.ok vid ∧
        env.providerInfo vid = Except.error e ∧
        analyze_youtube_video env url
          = "Error analyzing video: ".toList ++ e) ∨
      (∃ vid info e, extract_video_id url = Except.ok vid ∧
        env.providerInfo vid = Except.ok info ∧
        get_video_transcript env.transcriptOutcome vid true
          = Except.error e ∧
        analyze_youtube_video env url
          = "Error analyzing video: ".toList ++ e) ∨
      (∃ vid info tr, extract_video_id url = Except.ok vid ∧
        env.providerInfo vid = Except.ok info ∧
        get_video_transcript env.transcriptOutcome vid true = Except.ok tr ∧
        analyze_youtube_video env url
          = renderVideoDoc (metadata_of_info info) tr)) ∧
    (∀ (env : FetchEnv) (url : List Char),
      (env.urlHasSchemeAndHost url = false ∧
        fetch_web_page env url = "Invalid URL: ".toList ++ url) ∨
      (∃ e, env.urlHasSchemeAndHost url = true ∧
        env.httpGet url = Except.error e ∧
        fetch_web_page env url = "Error fetching web page: ".toList ++ e) ∨
      (∃ content e, env.urlHasSchemeAndHost url = true ∧
        env.httpGet url = Except.ok content ∧
        env.htmlToText content = Except.error e ∧
        fetch_web_page env url = "Error parsing web page: ".toList ++ e) ∨
      (∃ content text, env.urlHasSchemeAndHost url = true ∧
        env.httpGet url = Except.ok content ∧
        env.htmlToText content = Except.ok text ∧
        fetch_web_page env url = cleanPageText text)) := by
  constructor
  · intro env url
    cases h1 : extract_video_id url with
    | error e => exact Or.inl ⟨e, rfl, by simp [analyze_youtube_video, h1]⟩
    | ok vid =>
      cases h2 : env.providerInfo vid with
      | error e =>
        exact Or.inr (Or.inl ⟨vid, e, rfl, h2,
          by simp [analyze_youtube_video, h1, h2]⟩)
      | ok info =>
        cases h3 : get_video_transcript env.transcriptOutcome vid true with
        | error e =>
          exact Or.inr (Or.inr (Or.inl ⟨vid, info, e, rfl, h2, h3,
            by simp [analyze_youtube_video, h1, h2, h3]⟩))
        | ok tr =>
          exact Or.inr (Or.inr (Or.inr ⟨vid, info, tr, rfl, h2, h3,
            by simp [analyze_youtube_video, h1, h2, h3]⟩))
  · intro env url
    cases h1 : env.urlHasSchemeAndHost url with
    | false => exact Or.inl ⟨rfl, by simp [fetch_web_page, h1]⟩
    | true =>
      cases h2 : env.httpGet url with
      | error e =>
        exact Or.inr (Or.inl ⟨e, rfl, rfl, by simp [fetch_web_page, h1, h2]⟩)
      | ok content =>
        cases h3 : env.htmlToText content with
        | error e =>
          exact Or.inr (Or.inr (Or.inl ⟨content, e, rfl, rfl, h3,
            by simp [fetch_web_page, h1, h2, h3]⟩))
        | ok text =>
          exact Or.inr (Or.inr (Or.inr ⟨content, text, rfl, rfl, h3,
            by simp [fetch_web_page, h1, h2, h3]⟩))

theorem blankRun_cons (c : Char) (rest : List Char) :
    blankRun (c :: rest) =
      if c == '\n' then
        match blankRun rest with
        | some r => some r
        | none => some rest
      else if isPySpace c then blankRun rest else none := rfl

theorem blankRun_some_structure :
    ∀ {s r : List Char}, blankRun s = some r → ∃ pre, s = pre ++ '\n' :: r := by
  intro s
  induction s with
  | nil => intro r h; cases h
  | cons c rest ih =>
    intro r h
    rw [blankRun_cons] at h
    by_cases hc : c == '\n'
    · have hc' : c = '\n' := beq_iff_eq.mp hc
      subst hc'
      simp only [hc, if_true] at h
      cases hbr : blankRun rest with
      | some q =>
        rw [hbr] at h
        cases h
        obtain ⟨pre, hpre⟩ := ih hbr
        exact ⟨'\n' :: pre, by simp [hpre]⟩
      | none =>
        rw [hbr] at h
        cases h
        exact ⟨[], rfl⟩
    · simp only [hc, Bool.false_eq_true, if_false] at h
      by_cases hs : isPySpace c
      · simp only [hs, if_true] at h
        obtain ⟨pre, hpre⟩ := ih h
        exact ⟨c :: pre, by simp [hpre]⟩
      · simp [hs] at h

theorem blankRun_length_le {s r : List Char} (h : blankRun s = some r) :
    r.length ≤ s.length := by
  obtain ⟨pre, hpre⟩ := blankRun_some_structure h
  subst hpre
  simp only [List.length_append, List.length_cons]
  omega

theorem collapseBlankAux_succ_cons (fuel : Nat) (c : Char) (rest : List Char) :
    collapseBlankAux (fuel + 1) (c :: rest) =
      if c == '\n' then
        match blankRun rest with
        | some r => '\n' :: '\n' :: collapseBlankAux fuel r
        | none => c :: collapseBlankAux fuel rest
      else c :: collapseBlankAux fuel rest := rfl

theorem collapseBlankAux_congr :
    ∀ (f1 f2 : Nat) (s : List Char), s.length ≤ f1 → s.length ≤ f2 →
      collapseBlankAux f1 s = collapseBlankAux f2 s := by
  intro f1
  induction f1 with
  | zero =>
    intro f2 s h1 h2
    have hs : s = [] := List.eq_nil_of_length_eq_zero (Nat.le_zero.mp h1)
    subst hs
    cases f2 <;> rfl
  | succ f1 ih =>
    intro f2 s h1 h2
    cases s with
    | nil => cases f2 <;> rfl
    | cons c rest =>
      simp only [List.length_cons] at h1 h2
      cases f2 with
      | zero => omega
      | succ f2 =>
        rw [collapseBlankAux_succ_cons, collapseBlankAux_succ_cons]
        by_cases hc : (c == '\n') = true
        · rw [if_pos hc, if_pos hc]
          cases hbr : blankRun rest with
          | some r =>
            have hr := blankRun_length_le hbr
            dsimp only
            rw [ih f2 r (by omega) (by omega)]
          | none =>
            dsimp only
            rw [ih f2 rest (by omega) (by omega)]
        · rw [if_neg hc, if_neg hc]
          rw [ih f2 rest (by omega) (by omega)]

theorem collapseBlank_cons (c : Char) (rest : List Char) :
    collapseBlank (c :: rest) =
      if c == '\n' then
        match blankRun rest with
        | some r => '\n' :: '\n' :: collapseBlank r
        | none => c :: collapseBlank rest
      else c :: collapseBlank rest := by
  show collapseBlankAux (rest.length + 1) (c :: rest) = _
  rw [collapseBlankAux_succ_cons]
  by_cases hc : (c == '\n') = true
  · rw [if_pos hc, if_pos hc]
    cases hbr : blankRun rest with
    | some r =>
      have hr := blankRun_length_le hbr
      dsimp only
      rw [collapseBlankAux_congr rest.length r.length r (by omega) le_rfl]
      rfl
    | none => rfl
  · rw [if_neg hc, if_neg hc]
    rfl

theorem endsNonSpace_cons_cons (a d : Char) (rest : List Char) :
    endsNonSpace (a :: d :: rest) = endsNonSpace (d :: rest) := rfl

theorem endsNonSpace_append :
    ∀ (x y : List Char), y ≠ [] → endsNonSpace (x ++ y) = endsNonSpace y := by
  intro x
  induction x with
  | nil => intro y _; rfl
  | cons a x' ih =>
    intro y hy
    have hxy : x' ++ y ≠ [] := by
      intro h0
      exact hy (List.append_eq_nil.mp h0).2
    cases hempty : x' ++ y with
    | nil => exact absurd hempty hxy
    | cons b rest =>
      calc endsNonSpace ((a :: x') ++ y)
          = endsNonSpace (a :: (x' ++ y)) := rfl
        _ = endsNonSpace (x' ++ y) := by rw [hempty]; rfl
        _ = endsNonSpace y := ih y hy

theorem blankRun_append :
    ∀ (P B : List Char), endsNonSpace P = true →
      blankRun (P ++ B) =
        match blankRun P with
        | some r => some (r ++ B)
        | none => none := by
  intro P
  induction P with
  | nil => intro B h; exact absurd h (by decide)
  | cons c P' ih =>
    intro B h
    cases P' with
    | nil =>
      have hc : isPySpace c = false := by
        have h' : (!isPySpace c) = true := h
        simpa using h'
      have hcn : (c == '\n') = false := by
        by_cases hcc : c = '\n'
        · subst hcc; exact absurd hc (by decide)
        · exact beq_eq_false_iff_ne.mpr hcc
      simp [blankRun_cons, hcn, hc]
    | cons d P'' =>
      have h' : endsNonSpace (d :: P'') = true := h
      by_cases hc : (c == '\n') = true
      · rw [List.cons_append, blankRun_cons, blankRun_cons, if_pos hc,
          if_pos hc, ih B h']
        cases hbr : blankRun (d :: P'') with
        | some r => rfl
        | none => rfl
      · by_cases hs : isPySpace c = true
        · rw [List.cons_append, blankRun_cons, blankRun_cons, if_neg hc,
            if_neg hc, if_pos hs, if_pos hs]
          exact ih B h'
        · rw [List.cons_append, blankRun_cons, blankRun_cons, if_neg hc,
            if_neg hc, if_neg hs, if_neg hs]

theorem blankRun_space_run :
    ∀ (W : List Char), (∀ c ∈ W, isPySpace c = true) →
      ∀ (b : Char) (B : List Char), isPySpace b = false →
        blankRun (W ++ '\n' :: b :: B) = some (b :: B) := by
  intro W
  induction W with
  | nil =>
    intro _ b B hb
    have hbn : (b == '\n') = false := by
      by_cases hcc : b = '\n'
      · subst hcc; exact absurd hb (by decide)
      · exact beq_eq_false_iff_ne.mpr hcc
    have h0 : blankRun (b :: B) = none := by simp [blankRun_cons, hbn, hb]
    simp [blankRun_cons, h0]
  | cons w W' ih =>
    intro hW b B hb
    have hw : isPySpace w = true := hW w (List.mem_cons_self w W')
    have hW' : ∀ c ∈ W', isPySpace c = true :=
      fun c hc => hW c (List.mem_cons_of_mem _ hc)
    by_cases hwn : (w == '\n') = true
    · rw [List.cons_append, blankRun_cons, if_pos hwn, ih hW' b B hb]
    · rw [List.cons_append, blankRun_cons, if_neg hwn, if_pos hw,
        ih hW' b B hb]

theorem collapseBlank_append :
    ∀ (n : Nat) (P B : List Char), P.length ≤ n → endsNonSpace P = true →
      collapseBlank (P ++ B) = collapseBlank P ++ collapseBlank B := by
  intro n
  induction n with
  | zero =>
    intro P B h1 h2
    have hP : P = [] := List.eq_nil_of_length_eq_zero (Nat.le_zero.mp h1)
    subst hP
    exact absurd h2 (by decide)
  | succ n ih =>
    intro P B h1 h2
    cases P with
    | nil => exact absurd h2 (by decide)
    | cons c rest =>
      simp only [List.length_cons] at h1
      rw [List.cons_append, collapseBlank_cons, collapseBlank_cons]
      by_cases hc : (c == '\n') = true
      · have hcEq : c = '\n' := beq_iff_eq.mp hc
        cases rest with
        | nil =>
          subst hcEq
          exact absurd h2 (by decide)
        | cons d rest' =>
          simp only [List.length_cons] at h1
          have h2' : endsNonSpace (d :: rest') = true := h2
          rw [if_pos hc, if_pos hc, blankRun_append (d :: rest') B h2']
          cases hbr : blankRun (d :: rest') with
          | some r =>
            obtain ⟨pre, hpre⟩ := blankRun_some_structure hbr
            have hrne : r ≠ [] := by
              intro hr0
              subst hr0
              have hend : endsNonSpace (d :: rest') = false := by
                rw [hpre, endsNonSpace_append pre ['\n'] (by simp)]
                decide
              rw [hend] at h2'
              cases h2'
            have hrEnds : endsNonSpace r = true := by
              have e1 : endsNonSpace (d :: rest') = endsNonSpace ('\n' :: r) := by
                rw [hpre, endsNonSpace_append pre ('\n' :: r) (by simp)]
              have e2 : endsNonSpace ('\n' :: r) = endsNonSpace r := by
                cases r with
                | nil => exact absurd rfl hrne
                | cons x xs => rfl
              rw [e1, e2] at h2'
              exact h2'
            have hlen2 := congrArg List.length hpre
            simp only [List.length_cons, List.length_append] at hlen2
            dsimp only
            rw [ih r B (by omega) hrEnds]
            rfl
          | none =>
            dsimp only
            rw [ih (d :: rest') B (by simp only [List.length_cons]; omega) h2']
            rfl
      · rw [if_neg hc, if_neg hc]
        cases rest with
        | nil =>
          have h0 : collapseBlank ([] : List Char) = [] := rfl
          simp [h0]
        | cons d rest' =>
          simp only [List.length_cons] at h1
          have h2' : endsNonSpace (d :: rest') = true := h2
          rw [ih (d :: rest') B (by simp only [List.length_cons]; omega) h2']
          simp

theorem dropWhile_head?_false (p : Char → Bool) :
    ∀ (l : List Char) {c : Char},
      (l.dropWhile p).head? = some c → p c = false := by
  intro l
  induction l with
  | nil => intro c h; cases h
  | cons a l' ih =>
    intro c h
    by_cases ha : p a = true
    · rw [List.dropWhile_cons, if_pos ha] at h
      exact ih h
    · rw [List.dropWhile_cons, if_neg ha] at h
      cases h
      simpa using ha

theorem dropWhile_eq_drop (p : Char → Bool) :
    ∀ l : List Char, ∃ n, l.dropWhile p = l.drop n := by
  intro l
  induction l with
  | nil => exact ⟨0, rfl⟩
  | cons a l' ih =>
    by_cases ha : p a = true
    · obtain ⟨n, hn⟩ := ih
      exact ⟨n + 1, by rw [List.dropWhile_cons, if_pos ha, hn]; rfl⟩
    · exact ⟨0, by rw [List.dropWhile_cons, if_neg ha, List.drop_zero]⟩

theorem head?_take_imp {l : List Char} {m : Nat} {c : Char}
    (h : (l.take m).head? = some c) : l.head? = some c := by
  cases l with
  | nil => simp at h
  | cons a l' =>
    cases m with
    | zero => simp at h
    | succ m => simpa using h

/-- C7: a run of blank lines (a newline, then any all-whitespace segment,
then a newline) between non-whitespace content collapses to exactly one
blank line (`"\n\n"`), positioned where the run was — this covers the
5-consecutive-blank-lines case with an all-newline segment of length 4 —
and the strip stage leaves no leading or trailing whitespace character. -/
theorem page_whitespace_spec :
    (∀ (A W B : List Char) (b : Char),
      endsNonSpace A = true → (∀ c ∈ W, isPySpace c = true) →
      isPySpace b = false →
      collapseBlank (A ++ ('\n' :: (W ++ '\n' :: b :: B)))
        = collapseBlank A ++ '\n' :: '\n' :: collapseBlank (b :: B)) ∧
    (∀ (t : List Char) (c : Char),
      ((stripText t).head? = some c → isPySpace c = false) ∧
      ((stripText t).reverse.head? = some c → isPySpace c = false)) := by
  constructor
  · intro A W B b hA hW hb
    rw [collapseBlank_append A.length A ('\n' :: (W ++ '\n' :: b :: B))
      le_rfl hA]
    rw [collapseBlank_cons, if_pos (by decide : (('\n' : Char) == '\n') = true),
      blankRun_space_run W hW b B hb]
  · intro t c
    constructor
    · intro h
      obtain ⟨nn, hn⟩ := dropWhile_eq_drop isPySpace
        ((t.dropWhile isPySpace).reverse)
      have hs : stripText t
          = (((t.dropWhile isPySpace).reverse.drop nn)).reverse := by
        rw [stripText, hn]
      have he : (((t.dropWhile isPySpace).reverse.drop nn)).reverse
          = (t.dropWhile isPySpace).take
              ((t.dropWhile isPySpace).length - nn) := by
        rw [← List.rdrop_eq_reverse_drop_reverse]
        rfl
      rw [hs, he] at h
      exact dropWhile_head?_false isPySpace t (head?_take_imp h)
    · intro h
      have hrev : (stripText t).reverse
          = ((t.dropWhile isPySpace).reverse).dropWhile isPySpace := by
        rw [stripText, List.reverse_reverse]
      rw [hrev] at h
      exact dropWhile_head?_false isPySpace _ h

/-- C7 witness: the 5-blank-line page `"a\n\n\n\n\n\nb"` collapses to
`"a\n\nb"` — exactly one blank line — and stripping a concrete padded
text leaves a non-whitespace first character. -/
theorem page_whitespace_spec_witness :
    collapseBlank ("a".toList ++ ('\n' :: ("\n\n\n\n".toList ++ '\n' :: 'b' :: [])))
      = collapseBlank "a".toList ++ '\n' :: '\n' :: collapseBlank ['b'] ∧
    collapseBlank "a\n\n\n\n\n\nb".toList = "a\n\nb".toList ∧
    isPySpace 'x' = false :=
  ⟨page_whitespace_spec.1 "a".toList "\n\n\n\n".toList [] 'b' (by decide)
      (by decide) (by decide),
   by rfl,
   (page_whitespace_spec.2 "  x".toList 'x').1 (by rfl)⟩

end Factagent
